import Mathlib

/-
Shallow embedding of `src/model/EEG.py` (an EEG classification network built
from a multi-scale convolutional front end, dual mean/variance pooling,
a stack of pre-norm transformer blocks and a fusion/classifier head).

Two complementary levels are embedded, both translated from the source:

* value level (over `ℝ`, per batch/head/channel slice): the `attention`
  function, softmax rows, the variance-pooling operator with its
  clamp-then-log numerics, average pooling, dropout, and the transformer
  block composition.  Python floats are modelled as real numbers.

* shape level (over `List ℕ` dimension lists, `Option` for runtime shape
  errors): every layer of `NeuroTransNet.forward` is translated with the
  shape preconditions the PyTorch runtime enforces (channel counts for
  convolutions and batch norms, kernel-fits-input checks, rank checks,
  `torch.cat` of an empty list, einops rearrange rank checks, `nn.Linear`
  in-feature checks).  `none` models a raised runtime error.

Python `//` on possibly-negative ints is modelled by `Int.fdiv` (floor
division), exactly as in `EnhancedVariancePooling.forward` (line 24) and in
`temporal_embedding_dim` (line 135).
-/

namespace EEG

/-! ## Value-level embedding (per-slice real semantics) -/

noncomputable section

/-- Row softmax: models `F.softmax(scores, dim=-1)` applied to one row of the
last axis (the key axis), `EEG.py` line 11. -/
def softmaxRow (r : List ℝ) : List ℝ :=
  r.map fun x => Real.exp x / (r.map Real.exp).sum

/-- One output row of the einsum `'bhqk,bhkd->bhqd'` (`EEG.py` line 12) for a
fixed batch, head and query position: entry `j` is `Σ_k w_k * rows_k_j`. -/
def weightedSum (w : List ℝ) (rows : List (List ℝ)) : List ℝ :=
  (List.range ((rows.headD []).length)).map fun j =>
    (List.zipWith (fun c r => c * r.getD j 0) w rows).sum

/-- `attention(query, key, value)` from `EEG.py` lines 7-13, for one fixed
batch and head slice: `query` is a list of `n_q` rows of width `d`, `key` a
list of `n_k` rows of width `d`, `value` a list of `n_k` rows of width `d_v`.
`dim = query.size(-1)`; scores are dot products scaled by `dim ** 0.5`;
the attention weights are the row softmax of the scores; the output applies
the weights to `value`.  Returns `(out, attn)` exactly as the source does. -/
def attention (query key value : List (List ℝ)) :
    List (List ℝ) × List (List ℝ) :=
  let dim := (query.headD []).length
  let scores := query.map fun qr =>
    key.map fun kr => (List.zipWith (· * ·) qr kr).sum / Real.sqrt dim
  let attn := scores.map softmaxRow
  let out := attn.map fun ar => weightedSum ar value
  (out, attn)

/-- Arithmetic mean of a list; models `torch.mean` over one pooling window. -/
def listMean (xs : List ℝ) : ℝ := xs.sum / xs.length

/-- `input.var(dim=-1)` for one window (`EEG.py` line 31): torch's default
unbiased sample variance, `Σ (x - mean)² / (n - 1)`. -/
def torchVarUnbiased (xs : List ℝ) : ℝ :=
  ((xs.map fun v => (v - listMean xs) ^ 2).sum) / ((xs.length : ℝ) - 1)

/-- `torch.clamp(x, lo, hi)` = `min (max x lo) hi`. -/
def clampTorch (x lo hi : ℝ) : ℝ := min (max x lo) hi

/-- `EnhancedVariancePooling.forward` (`EEG.py` lines 22-35) restricted to one
batch/channel slice `x[b, c, :]` (the loop, slicing, variance, clamp and log
all act independently per such slice).  `out_shape = (t - kernel_size) //
stride + 1` uses Python floor division, modelled by `Int.fdiv`; `stride = 0`
is a Python `ZeroDivisionError`; when `out_shape ≤ 0` the loop body never runs
and `torch.cat` of the empty list raises, modelled as `none`. -/
def enhancedVariancePoolingForward (kernel_size stride : ℕ) (xs : List ℝ) :
    Option (List ℝ) :=
  if stride = 0 then none
  else if Int.fdiv ((xs.length : ℤ) - kernel_size) stride + 1 ≤ 0 then none
  else some ((List.range (Int.fdiv ((xs.length : ℤ) - kernel_size) stride + 1).toNat).map
    fun i => Real.log (clampTorch
      (torchVarUnbiased ((xs.drop (i * stride)).take kernel_size)) 1e-6 1e6))

/-- `nn.AvgPool1d(kernel_size, stride)` on one batch/channel slice.  PyTorch
raises when the kernel size or stride is non-positive or when the kernel does
not fit into the input, otherwise produces `⌊(t - k)/s⌋ + 1` window means. -/
def avgPool1dForward (kernel_size stride : ℕ) (xs : List ℝ) :
    Option (List ℝ) :=
  if 1 ≤ kernel_size ∧ 1 ≤ stride ∧ kernel_size ≤ xs.length then
    some ((List.range ((xs.length - kernel_size) / stride + 1)).map
      fun i => ((xs.drop (i * stride)).take kernel_size).sum / kernel_size)
  else none

/-- `nn.Dropout(p)` on a flat slice of values: in training mode each entry is
either zeroed (mask false) or rescaled by `1/(1-p)` (mask true); in
evaluation mode (`training = false`) dropout is the identity.  The mask is
the per-invocation randomness, passed explicitly. -/
def dropoutForward (p : ℝ) (training : Bool) (mask : ℕ → Bool)
    (xs : List ℝ) : List ℝ :=
  if training then
    ((List.range xs.length).zip xs).map fun pr =>
      if mask pr.1 then pr.2 / (1 - p) else 0
  else xs

/-- A tensor slice `[n, d]` used by the transformer block embedding. -/
abbrev Mat := List (List ℝ)

/-- Elementwise tensor addition (the `+` of the residual connections; both
operands have identical shape at every use in the source). -/
def matAdd (a b : Mat) : Mat := List.zipWith (List.zipWith (· + ·)) a b

/-- `EnhancedTransformerBlock.forward` (`EEG.py` lines 96-103), with the four
learned sub-modules (`multihead_attention`, `feed_forward`, `layernorm1`,
`layernorm2`) abstracted as functions on slices:
`res = layernorm1(data); out = data + mha(res, res, res);
res = layernorm2(out); return out + feed_forward(res)`. -/
def enhancedTransformerBlockForward
    (multihead_attention : Mat → Mat → Mat → Mat) (feed_forward : Mat → Mat)
    (layernorm1 layernorm2 : Mat → Mat) (data : Mat) : Mat :=
  let res := layernorm1 data
  let out := matAdd data (multihead_attention res res res)
  let res2 := layernorm2 out
  matAdd out (feed_forward res2)

/-- The pre-normalization composition as the spec words it:
`y = x + Attention(Norm1 x)` (query, key and value all `Norm1 x`),
then `y + FeedForward(Norm2 y)`. -/
def preNormResidualSpec
    (multihead_attention : Mat → Mat → Mat → Mat) (feed_forward : Mat → Mat)
    (layernorm1 layernorm2 : Mat → Mat) (x : Mat) : Mat :=
  let y := matAdd x (multihead_attention (layernorm1 x) (layernorm1 x) (layernorm1 x))
  matAdd y (feed_forward (layernorm2 y))

end

/-- Applying one stack of blocks to a single path:
`for transformer in blocks: x = transformer(x)`. -/
def applyStack {α : Type} (blocks : List (α → α)) (x : α) : α :=
  blocks.foldl (fun acc f => f acc) x

/-- The dual-path loop of `NeuroTransNet.forward` (`EEG.py` lines 205-207):
`for transformer in self.transformer_blocks: x1 = transformer(x1);
x2 = transformer(x2)` — the very same block instance is applied to both
paths at every stage. -/
def dualPathBlocksLoop {α : Type} (blocks : List (α → α)) (x1 x2 : α) : α × α :=
  blocks.foldl (fun p f => (f p.1, f p.2)) (x1, x2)

/-- What the spec describes: the exact same stack instance (one shared list
of weighted blocks) processes both pooling paths independently. -/
def sharedStackBothPathsSpec {α : Type} (blocks : List (α → α)) (x1 x2 : α) :
    α × α :=
  (applyStack blocks x1, applyStack blocks x2)

/-! ## Shape-level embedding of `NeuroTransNet`

Shapes are dimension lists; `none` models a raised runtime error. -/

/-- Construction parameters of `NeuroTransNet.__init__` (`EEG.py` lines
113-114).  The dropout probabilities `attn_drop`/`fc_drop` are omitted: they
never influence shapes, construction success or evaluation-mode behaviour. -/
structure NTNConfig where
  num_classes : ℕ
  num_samples : ℕ
  num_channels : ℕ
  embed_dim : ℕ
  pool_size : ℕ
  pool_stride : ℕ
  num_heads : ℕ
  fc_ratio : ℕ
  depth : ℕ
deriving DecidableEq

/-- The default construction parameters of the source. -/
def defaultNTNConfig : NTNConfig := ⟨4, 1000, 22, 32, 50, 15, 8, 4, 4⟩

/-- `self.temporal_embedding_dim = (num_samples - pool_size) // pool_stride + 1`
(`EEG.py` line 135): Python int arithmetic, `//` is floor division. -/
def tedInt (cfg : NTNConfig) : ℤ :=
  Int.fdiv ((cfg.num_samples : ℤ) - cfg.pool_size) cfg.pool_stride + 1

/-- `NeuroTransNet.__init__` at shape level.  PyTorch module constructors
validate lazily; the only construction-time failures are Python arithmetic
errors and negative tensor dimensions:
* `pool_stride = 0`: `ZeroDivisionError` at line 135;
* `num_heads = 0` with at least one block: `ZeroDivisionError` at
  `d_model // n_head` (`EEG.py` line 41) while building the block list;
* a negative `embed_dim * temporal_embedding_dim`: `nn.Linear` (line 153)
  rejects a negative in-feature count.
No divisibility of `embed_dim` by 4 or of `embed_dim` by `num_heads` is
checked anywhere. -/
def constructNTN (cfg : NTNConfig) : Option Unit :=
  if cfg.pool_stride = 0 then none
  else if cfg.num_heads = 0 ∧ 1 ≤ cfg.depth then none
  else if (cfg.embed_dim : ℤ) * tedInt cfg < 0 then none
  else some ()

/-- `nn.Conv2d(inC, outC, (kh, kw), padding=(ph, pw))` on a 4-D input
`[b, c, h, w]` (the only rank this flow feeds it): requires the channel count
to match, positive kernel sizes, and the (padded) input to be at least as
large as the kernel; output spatial dims are `h + 2ph - kh + 1` and
`w + 2pw - kw + 1`. -/
def conv2dShape (inC outC kh kw ph pw : ℕ) : List ℕ → Option (List ℕ)
  | [b, c, h, w] =>
    if c = inC ∧ 1 ≤ kh ∧ 1 ≤ kw ∧ kh ≤ h + 2 * ph ∧ kw ≤ w + 2 * pw then
      some [b, outC, h + 2 * ph + 1 - kh, w + 2 * pw + 1 - kw]
    else none
  | _ => none

/-- `nn.BatchNorm2d(features)`: requires a 4-D input whose channel dimension
equals `features`; shape-preserving. -/
def batchNorm2dShape (features : ℕ) : List ℕ → Option (List ℕ)
  | [b, c, h, w] => if c = features then some [b, c, h, w] else none
  | _ => none

/-- `torch.cat((x1, x2, x3, x4), dim=1)` on four 4-D tensors: all dims except
dim 1 must agree; channel counts add. -/
def cat4dim1 : List ℕ → List ℕ → List ℕ → List ℕ → Option (List ℕ)
  | [b1, c1, h1, w1], [b2, c2, h2, w2], [b3, c3, h3, w3], [b4, c4, h4, w4] =>
    if b1 = b2 ∧ b2 = b3 ∧ b3 = b4 ∧ h1 = h2 ∧ h2 = h3 ∧ h3 = h4
        ∧ w1 = w2 ∧ w2 = w3 ∧ w3 = w4 then
      some [b1, c1 + c2 + c3 + c4, h1, w1]
    else none
  | _, _, _, _ => none

/-- `x.squeeze(dim=2)` on the 4-D tensor this flow produces: removes dim 2
when it is 1, otherwise leaves the tensor unchanged. -/
def squeeze2Shape : List ℕ → List ℕ
  | [b, c, h, w] => if h = 1 then [b, c, w] else [b, c, h, w]
  | s => s

/-- `nn.AvgPool1d(k, s)`: accepts the 3-D `[b, c, t]` this flow produces
(a 4-D tensor — possible when the squeeze kept its dim — raises a rank
error); requires positive kernel and stride and a kernel that fits;
output length `⌊(t - k)/s⌋ + 1`. -/
def avgPool1dShape (k s : ℕ) : List ℕ → Option (List ℕ)
  | [b, c, t] =>
    if 1 ≤ k ∧ 1 ≤ s ∧ k ≤ t then some [b, c, (t - k) / s + 1] else none
  | _ => none

/-- `EnhancedVariancePooling.forward` at shape level on `[b, c, t]`:
`out_shape = (t - k) // s + 1` by Python floor division (`Int.fdiv`);
`s = 0` raises `ZeroDivisionError`; `out_shape ≤ 0` makes the window loop
empty and `torch.cat([])` raises; otherwise one log-variance per window. -/
def varPool1dShape (k s : ℕ) : List ℕ → Option (List ℕ)
  | [b, c, t] =>
    if 1 ≤ s ∧ 0 < Int.fdiv ((t : ℤ) - k) s + 1 then
      some [b, c, (Int.fdiv ((t : ℤ) - k) s + 1).toNat]
    else none
  | _ => none

/-- `nn.Dropout` never changes shapes and never raises; the mask argument is
the per-invocation randomness (unused at shape level — dropout only rescales
or zeroes entries). -/
def dropoutShape (training : Bool) (mask : ℕ → Bool) (s : List ℕ) : List ℕ :=
  s

/-- `rearrange(x, 'b d n -> b n d')`: requires rank 3, swaps the last two
dims. -/
def rearrangeToSeq : List ℕ → Option (List ℕ)
  | [b, d, n] => some [b, n, d]
  | _ => none

/-- `nn.Linear(inF, outF)` on the 2-D and 3-D inputs of this flow: last dim
must equal `inF` and becomes `outF`. -/
def linearShape (inF outF : ℕ) : List ℕ → Option (List ℕ)
  | [b, d] => if d = inF then some [b, outF] else none
  | [b, n, d] => if d = inF then some [b, n, outF] else none
  | _ => none

/-- The classifier `nn.Linear` with its in-feature count kept as a Python
int (`embed_dim * temporal_embedding_dim` may be negative in principle). -/
def linearShapeZ (inF : ℤ) (outF : ℕ) : List ℕ → Option (List ℕ)
  | [b, d] => if (d : ℤ) = inF then some [b, outF] else none
  | _ => none

/-- `nn.LayerNorm(d)` on the 3-D inputs of this flow: the last dim must
equal the normalized shape; shape-preserving. -/
def layerNormShape (d : ℕ) : List ℕ → Option (List ℕ)
  | [b, n, last] => if last = d then some [b, n, last] else none
  | _ => none

/-- `rearrange(x, 'b n (h d) -> b h n d', h = nh)` (`EEG.py` lines 55-57):
requires `nh ≥ 1` and `nh` to divide the packed last dim. -/
def splitHeadsShape (nh : ℕ) : List ℕ → Option (List ℕ)
  | [b, n, hd] =>
    if 1 ≤ nh ∧ nh ∣ hd then some [b, nh, n, hd / nh] else none
  | _ => none

/-- The two einsums of `attention` at shape level
(`'bhqd,bhkd->bhqk'` then `'bhqk,bhkd->bhqd'`): batch, head and the
contracted dims must agree; softmax preserves shape. -/
def attentionShape : List ℕ → List ℕ → List ℕ → Option (List ℕ)
  | [b, h, n, d], [b', h', m, d'], [b'', h'', m', dv] =>
    if b = b' ∧ h = h' ∧ d = d' ∧ b = b'' ∧ h = h'' ∧ m = m' then
      some [b, h, n, dv]
    else none
  | _, _, _ => none

/-- `rearrange(out, 'b h q d -> b q (h d)')` (`EEG.py` line 61). -/
def mergeHeadsShape : List ℕ → Option (List ℕ)
  | [b, h, q, d] => some [b, q, h * d]
  | _ => none

/-- `AdvancedMultiHeadAttention.forward` (`EEG.py` lines 53-64) at shape
level, for `d_model = e`, `n_head = nh`: `d_k = d_v = e / nh` (Python `//`),
so the projections map `e → nh * (e / nh)`; heads are split, attention
applied, heads merged, and `w_o : nh * (e / nh) → e` projects back.
The trailing dropout is shape-preserving. -/
def mhaShape (e nh : ℕ) (sq sk sv : List ℕ) : Option (List ℕ) :=
  Option.bind (linearShape e (nh * (e / nh)) sq) fun q0 =>
  Option.bind (linearShape e (nh * (e / nh)) sk) fun k0 =>
  Option.bind (linearShape e (nh * (e / nh)) sv) fun v0 =>
  Option.bind (splitHeadsShape nh q0) fun q =>
  Option.bind (splitHeadsShape nh k0) fun k =>
  Option.bind (splitHeadsShape nh v0) fun v =>
  Option.bind (attentionShape q k v) fun o =>
  Option.bind (mergeHeadsShape o) fun o2 =>
  linearShape (nh * (e / nh)) e o2

/-- `AdvancedFeedForward.forward` (`EEG.py` lines 76-84) at shape level:
`w_1 : e → e * fc`, GELU and dropout shape-preserving, `w_2 : e * fc → e`. -/
def feedForwardShape (e fc : ℕ) (s : List ℕ) : Option (List ℕ) :=
  Option.bind (linearShape e (e * fc) s) fun s1 =>
  linearShape (e * fc) e s1

/-- Shapes are equal at every residual addition in this flow; unequal shapes
model a broadcast failure. -/
def addShapeEq (a b : List ℕ) : Option (List ℕ) :=
  if a = b then some a else none

/-- `EnhancedTransformerBlock.forward` (`EEG.py` lines 96-103) at shape
level. -/
def blockShape (e nh fc : ℕ) (s : List ℕ) : Option (List ℕ) :=
  Option.bind (layerNormShape e s) fun r1 =>
  Option.bind (mhaShape e nh r1 r1 r1) fun m =>
  Option.bind (addShapeEq s m) fun o =>
  Option.bind (layerNormShape e o) fun r2 =>
  Option.bind (feedForwardShape e fc r2) fun f =>
  addShapeEq o f

/-- The block loop (`EEG.py` lines 205-207) at shape level: each of the
`depth` blocks is applied to the mean path, then to the variance path. -/
def blocksShape (depth e nh fc : ℕ) (x1 x2 : List ℕ) :
    Option (List ℕ × List ℕ) :=
  match depth with
  | 0 => some (x1, x2)
  | d + 1 =>
    Option.bind (blockShape e nh fc x1) fun y1 =>
    Option.bind (blockShape e nh fc x2) fun y2 =>
    blocksShape d e nh fc y1 y2

/-- `x.unsqueeze(dim=2)` on the 3-D tensors of the fusion stage. -/
def unsqueeze2Shape : List ℕ → Option (List ℕ)
  | [b, n, d] => some [b, n, 1, d]
  | _ => none

/-- `torch.cat((x1, x2), dim=2)` on the two 4-D path tensors. -/
def cat2dim2 : List ℕ → List ℕ → Option (List ℕ)
  | [b1, n1, o1, d1], [b2, n2, o2, d2] =>
    if b1 = b2 ∧ n1 = n2 ∧ d1 = d2 then some [b1, n1, o1 + o2, d1] else none
  | _, _ => none

/-- `x.reshape(x.size(0), -1)`. -/
def flattenFrom1 : List ℕ → Option (List ℕ)
  | b :: rest => some [b, rest.prod]
  | [] => none

/-- The fusion-and-classification tail of `NeuroTransNet.forward`
(`EEG.py` lines 209-219): unsqueeze both paths, concatenate on dim 2, the
`feature_encoder` `nn.Conv2d(122, 64, (2, 1))` + `BatchNorm2d(64)` + ELU,
flatten, and the classifier
`nn.Linear(embed_dim * temporal_embedding_dim, num_classes)`. -/
def fusionClassify (cfg : NTNConfig) (x1 x2 : List ℕ) : Option (List ℕ) :=
  Option.bind (unsqueeze2Shape x1) fun y1 =>
  Option.bind (unsqueeze2Shape x2) fun y2 =>
  Option.bind (cat2dim2 y1 y2) fun sf =>
  Option.bind (conv2dShape 122 64 2 1 0 0 sf) fun sf2 =>
  Option.bind (batchNorm2dShape 64 sf2) fun sf3 =>
  Option.bind (flattenFrom1 sf3) fun sfl =>
  linearShapeZ ((cfg.embed_dim : ℤ) * tedInt cfg) cfg.num_classes sfl

/-- `NeuroTransNet.forward` (`EEG.py` lines 172-221) at shape level, on a
batch input of shape `[b, c, t]`.  `training` and the two dropout masks are
threaded exactly where `self.dropout` is invoked (lines 197-198); dropout
never changes shapes.  ELU activations are shape-preserving and omitted. -/
def ntForwardShape (cfg : NTNConfig) (training : Bool) (mask1 mask2 : ℕ → Bool)
    (b c t : ℕ) : Option (List ℕ) :=
  Option.bind (conv2dShape 1 (cfg.embed_dim / 4) 1 15 0 7 [b, 1, c, t]) fun s1 =>
  Option.bind (conv2dShape 1 (cfg.embed_dim / 4) 1 25 0 12 [b, 1, c, t]) fun s2 =>
  Option.bind (conv2dShape 1 (cfg.embed_dim / 4) 1 51 0 25 [b, 1, c, t]) fun s3 =>
  Option.bind (conv2dShape 1 (cfg.embed_dim / 4) 1 65 0 32 [b, 1, c, t]) fun s4 =>
  Option.bind (cat4dim1 s1 s2 s3 s4) fun sc =>
  Option.bind (batchNorm2dShape cfg.embed_dim sc) fun sb =>
  Option.bind (conv2dShape cfg.embed_dim cfg.embed_dim cfg.num_channels 1 0 0 sb) fun sp =>
  Option.bind (batchNorm2dShape cfg.embed_dim sp) fun sb2 =>
  Option.bind (avgPool1dShape cfg.pool_size cfg.pool_stride (squeeze2Shape sb2)) fun p1 =>
  Option.bind (varPool1dShape cfg.pool_size cfg.pool_stride (squeeze2Shape sb2)) fun p2 =>
  Option.bind (rearrangeToSeq (dropoutShape training mask1 p1)) fun x1 =>
  Option.bind (rearrangeToSeq (dropoutShape training mask2 p2)) fun x2 =>
  Option.bind (blocksShape cfg.depth cfg.embed_dim cfg.num_heads cfg.fc_ratio x1 x2) fun p =>
  fusionClassify cfg p.1 p.2

/-! ## Helper lemmas -/

/-- Python `//` on two naturals is natural division. -/
theorem int_fdiv_natCast (m n : ℕ) :
    Int.fdiv (m : ℤ) (n : ℤ) = ((m / n : ℕ) : ℤ) := by
  cases m with
  | zero =>
    show Int.fdiv (Int.ofNat 0) (Int.ofNat n) = Int.ofNat (0 / n)
    rw [Nat.zero_div]
    rfl
  | succ m => rfl

/-- Python `//` of a nonnegative difference, plus one: the pooled length. -/
theorem fdiv_sub_natCast (t k s : ℕ) (h : k ≤ t) :
    Int.fdiv ((t : ℤ) - k) s + 1 = (((t - k) / s + 1 : ℕ) : ℤ) := by
  rw [show ((t : ℤ) - k) = ((t - k : ℕ) : ℤ) by omega, int_fdiv_natCast]
  push_cast
  ring

/-- Python `//` of a negative number by a positive one is negative. -/
theorem fdiv_neg_of_neg (a : ℤ) (s : ℕ) (ha : a < 0) (hs : 1 ≤ s) :
    Int.fdiv a s < 0 := by
  obtain ⟨m, rfl⟩ : ∃ m : ℕ, a = Int.negSucc m := by
    refine ⟨(-a - 1).toNat, ?_⟩
    rw [Int.negSucc_eq]
    omega
  obtain ⟨s', rfl⟩ : ∃ s', s = s' + 1 := ⟨s - 1, by omega⟩
  show Int.fdiv (Int.negSucc m) (Int.ofNat (s' + 1)) < 0
  rw [show Int.fdiv (Int.negSucc m) (Int.ofNat (s' + 1))
        = Int.negSucc (m / (s' + 1)) from rfl]
  exact Int.negSucc_lt_zero _

/-- A softmax row over a nonempty score row sums to 1. -/
theorem softmaxRow_sum (r : List ℝ) (h : r ≠ []) : (softmaxRow r).sum = 1 := by
  have hpos : 0 < (r.map Real.exp).sum := by
    refine List.sum_pos _ (fun x hx => ?_) (by simpa using h)
    obtain ⟨y, _, rfl⟩ := List.mem_map.mp hx
    exact Real.exp_pos y
  unfold softmaxRow
  rw [show (fun x => Real.exp x / (r.map Real.exp).sum)
        = fun x => Real.exp x * ((r.map Real.exp).sum)⁻¹ from
      funext fun x => div_eq_mul_inv _ _]
  rw [List.sum_map_mul_right, mul_inv_cancel₀ hpos.ne']

/-- The variance of a constant list is zero. -/
theorem torchVarUnbiased_const (xs : List ℝ) (c : ℝ) (h : ∀ y ∈ xs, y = c) :
    torchVarUnbiased xs = 0 := by
  have hnum : (xs.map fun v => (v - listMean xs) ^ 2).sum = 0 := by
    cases xs with
    | nil => simp
    | cons a tl =>
      have hmean : listMean (a :: tl) = c := by
        have hsum : (a :: tl).sum = (a :: tl).length • c :=
          List.sum_eq_card_nsmul _ _ h
        have hlen : ((a :: tl).length : ℝ) ≠ 0 :=
          Nat.cast_ne_zero.mpr (by simp)
        rw [listMean, hsum, nsmul_eq_mul]
        exact mul_div_cancel_left₀ c hlen
      refine List.sum_eq_zero fun x hx => ?_
      obtain ⟨v, hv, rfl⟩ := List.mem_map.mp hx
      rw [h v hv, hmean]
      ring
  rw [torchVarUnbiased, hnum, zero_div]

/-- Clamping zero to the variance-pooling range yields the lower bound. -/
theorem clampTorch_zero : clampTorch 0 1e-6 1e6 = 1e-6 := by
  rw [clampTorch, max_eq_right (by norm_num), min_eq_left (by norm_num)]

/-- Each temporal convolution preserves the channel/time extent: kernel
`2*pw + 1` with padding `pw` maps `[b, 1, c, t]` to `[b, oc, c, t]`. -/
theorem conv_temporal_ok (oc kw pw b c t : ℕ) (hk : kw = 2 * pw + 1)
    (hc : 1 ≤ c) (ht : 1 ≤ t) :
    conv2dShape 1 oc 1 kw 0 pw [b, 1, c, t] = some [b, oc, c, t] := by
  simp only [conv2dShape]
  rw [if_pos (by refine ⟨trivial, ?_, ?_, ?_, ?_⟩ <;> omega)]
  have h1 : c + 2 * 0 + 1 - 1 = c := by omega
  have h2 : t + 2 * pw + 1 - kw = t := by omega
  rw [h1, h2]

/-- A degenerate input (no channels or no samples) fails the first temporal
convolution. -/
theorem conv_temporal15_fail (oc b c t : ℕ) (h : ¬(1 ≤ c ∧ 1 ≤ t)) :
    conv2dShape 1 oc 1 15 0 7 [b, 1, c, t] = none := by
  simp only [conv2dShape]
  rw [if_neg]
  omega

/-- The spatial convolution collapses the electrode axis to 1. -/
theorem conv_spatial_ok (e nc t b : ℕ) (hc : 1 ≤ nc) (ht : 1 ≤ t) :
    conv2dShape e e nc 1 0 0 [b, e, nc, t] = some [b, e, 1, t] := by
  simp only [conv2dShape]
  rw [if_pos (by refine ⟨trivial, ?_, ?_, ?_, ?_⟩ <;> omega)]
  have h1 : nc + 2 * 0 + 1 - nc = 1 := by omega
  have h2 : t + 2 * 0 + 1 - 1 = t := by omega
  rw [h1, h2]

/-- With at least one head, self-attention is shape-preserving on
`[b, n, embed_dim]` — regardless of whether `nh` divides `e`, since the
projections pack exactly `nh * (e / nh)` features. -/
theorem mhaShape_preserves (e nh b n : ℕ) (hnh : 1 ≤ nh) :
    mhaShape e nh [b, n, e] [b, n, e] [b, n, e] = some [b, n, e] := by
  have hdvd : nh ∣ nh * (e / nh) := dvd_mul_right _ _
  have hq : nh * (e / nh) / nh = e / nh := Nat.mul_div_cancel_left _ (by omega)
  unfold mhaShape
  simp only [linearShape, eq_self_iff_true, if_true, Option.some_bind,
    splitHeadsShape, hnh, hdvd, and_self, attentionShape, mergeHeadsShape,
    hq, true_and]

/-- With at least one head, a transformer block is shape-preserving on
`[b, n, embed_dim]`. -/
theorem blockShape_preserves (e nh fc b n : ℕ) (hnh : 1 ≤ nh) :
    blockShape e nh fc [b, n, e] = some [b, n, e] := by
  unfold blockShape
  simp only [layerNormShape, mhaShape_preserves e nh b n hnh,
    feedForwardShape, linearShape, addShapeEq, eq_self_iff_true, if_true,
    Option.some_bind]

/-- With at least one head, the whole block loop is shape-preserving. -/
theorem blocksShape_preserves (depth e nh fc b n1 n2 : ℕ) (hnh : 1 ≤ nh) :
    blocksShape depth e nh fc [b, n1, e] [b, n2, e]
      = some ([b, n1, e], [b, n2, e]) := by
  induction depth with
  | zero => rfl
  | succ d ih =>
    simp only [blocksShape, blockShape_preserves _ _ _ _ _ hnh,
      Option.some_bind]
    exact ih

/-- With zero heads, the head-splitting rearrange fails inside any block. -/
theorem blockShape_zero_heads (e fc : ℕ) (s : List ℕ) :
    blockShape e 0 fc s = none := by
  unfold blockShape mhaShape
  rcases s with _ | ⟨a, s⟩
  · rfl
  rcases s with _ | ⟨b', s⟩
  · rfl
  rcases s with _ | ⟨c', s⟩
  · rfl
  rcases s with _ | ⟨d', s⟩
  · -- rank-3 input [a, b', c']: dies at the head split (1 ≤ 0 is false)
    simp only [layerNormShape]
    by_cases hc : c' = e
    · subst hc
      have hsplit : splitHeadsShape 0 [a, b', 0 * (c' / 0)] = none := by
        simp [splitHeadsShape]
      simp only [eq_self_iff_true, if_true, Option.some_bind, linearShape,
        hsplit, Option.none_bind]
    · rw [if_neg hc]
      rfl
  · rfl

/-- With zero heads and at least one block, the loop raises. -/
theorem blocksShape_zero_heads (d e fc : ℕ) (hd : 1 ≤ d) (x1 x2 : List ℕ) :
    blocksShape d e 0 fc x1 x2 = none := by
  cases d with
  | zero => omega
  | succ d => simp [blocksShape, blockShape_zero_heads]

/-- The fusion/classifier tail can never succeed when fed the two path
tensors `[b, n, embed_dim]` with `n` equal to the temporal embedding length:
the fusion convolution forces `n = 122` (and `embed_dim ≥ 1`), while the
classifier forces `64 * embed_dim = embed_dim * n`, i.e. `n = 64`. -/
theorem fusionClassify_ted_none (cfg : NTNConfig) (b n : ℕ)
    (hted : tedInt cfg = (n : ℤ)) :
    fusionClassify cfg [b, n, cfg.embed_dim] [b, n, cfg.embed_dim] = none := by
  have hcat : cat2dim2 [b, n, 1, cfg.embed_dim] [b, n, 1, cfg.embed_dim]
      = some [b, n, 2, cfg.embed_dim] := by
    simp [cat2dim2]
  unfold fusionClassify
  simp only [unsqueeze2Shape, Option.some_bind, hcat]
  by_cases h122 : n = 122
  · subst h122
    by_cases hepos : 1 ≤ cfg.embed_dim
    · have hconv : conv2dShape 122 64 2 1 0 0 [b, 122, 2, cfg.embed_dim]
          = some [b, 64, 1, cfg.embed_dim] := by
        simp only [conv2dShape]
        rw [if_pos (by refine ⟨trivial, ?_, ?_, ?_, ?_⟩ <;> omega)]
        have h1 : 2 + 2 * 0 + 1 - 2 = 1 := by omega
        have h2 : cfg.embed_dim + 2 * 0 + 1 - 1 = cfg.embed_dim := by omega
        rw [h1, h2]
      rw [hconv]
      simp only [Option.some_bind, batchNorm2dShape, eq_self_iff_true,
        if_true, flattenFrom1, List.prod_cons, List.prod_nil, mul_one,
        one_mul, linearShapeZ, hted]
      rw [if_neg]
      push_cast
      omega
    · rw [show conv2dShape 122 64 2 1 0 0 [b, 122, 2, cfg.embed_dim] = none by
        simp only [conv2dShape]; rw [if_neg]; omega]
      rfl
  · rw [show conv2dShape 122 64 2 1 0 0 [b, n, 2, cfg.embed_dim] = none by
      simp only [conv2dShape]; rw [if_neg]; omega]
    rfl

/-- A successful variance pooling of `[b, e, t]` when the kernel fits. -/
theorem varPool1dShape_ok (k s b e t : ℕ) (hs : 1 ≤ s) (hk : k ≤ t) :
    varPool1dShape k s [b, e, t] = some [b, e, (t - k) / s + 1] := by
  simp only [varPool1dShape]
  rw [fdiv_sub_natCast t k s hk]
  generalize (t - k) / s = q
  rw [if_pos ⟨hs, by exact_mod_cast Nat.succ_pos q⟩]
  have htn : ((q + 1 : ℕ) : ℤ).toNat = q + 1 := by omega
  rw [htn]

/-- C2: there exists no construction configuration for which
`NeuroTransNet.forward` completes on a correctly shaped input
`[b, num_channels, num_samples]`: the fusion convolution
`nn.Conv2d(122, 64, (2, 1))` needs the pooled sequence length to be 122
while the classifier `nn.Linear(embed_dim * temporal_embedding_dim, _)`
needs it to be 64, so every forward invocation raises — whatever the
configuration, batch size, mode and dropout randomness (configurations that
break even earlier raise at an earlier layer). -/
theorem neuroTransNet_forward_never_completes (cfg : NTNConfig) (b : ℕ)
    (training : Bool) (mask1 mask2 : ℕ → Bool) :
    ntForwardShape cfg training mask1 mask2 b cfg.num_channels
      cfg.num_samples = none := by
  unfold ntForwardShape
  by_cases hct : 1 ≤ cfg.num_channels ∧ 1 ≤ cfg.num_samples
  case neg =>
    rw [conv_temporal15_fail _ _ _ _ hct]
    rfl
  obtain ⟨hc, ht⟩ := hct
  rw [conv_temporal_ok _ 15 7 _ _ _ rfl hc ht,
    conv_temporal_ok _ 25 12 _ _ _ rfl hc ht,
    conv_temporal_ok _ 51 25 _ _ _ rfl hc ht,
    conv_temporal_ok _ 65 32 _ _ _ rfl hc ht]
  simp only [Option.some_bind]
  rw [show cat4dim1 [b, cfg.embed_dim / 4, cfg.num_channels, cfg.num_samples]
      [b, cfg.embed_dim / 4, cfg.num_channels, cfg.num_samples]
      [b, cfg.embed_dim / 4, cfg.num_channels, cfg.num_samples]
      [b, cfg.embed_dim / 4, cfg.num_channels, cfg.num_samples]
      = some [b, cfg.embed_dim / 4 + cfg.embed_dim / 4 + cfg.embed_dim / 4
          + cfg.embed_dim / 4, cfg.num_channels, cfg.num_samples] by
    simp [cat4dim1]]
  simp only [Option.some_bind]
  by_cases hsum : cfg.embed_dim / 4 + cfg.embed_dim / 4 + cfg.embed_dim / 4
      + cfg.embed_dim / 4 = cfg.embed_dim
  case neg =>
    rw [show batchNorm2dShape cfg.embed_dim
        [b, cfg.embed_dim / 4 + cfg.embed_dim / 4 + cfg.embed_dim / 4
          + cfg.embed_dim / 4, cfg.num_channels, cfg.num_samples] = none by
      simp only [batchNorm2dShape]; rw [if_neg hsum]]
    rfl
  rw [show batchNorm2dShape cfg.embed_dim
      [b, cfg.embed_dim / 4 + cfg.embed_dim / 4 + cfg.embed_dim / 4
        + cfg.embed_dim / 4, cfg.num_channels, cfg.num_samples]
      = some [b, cfg.embed_dim, cfg.num_channels, cfg.num_samples] by
    simp only [batchNorm2dShape]; rw [if_pos hsum, hsum]]
  simp only [Option.some_bind]
  rw [conv_spatial_ok _ _ _ _ hc ht]
  simp only [Option.some_bind]
  rw [show batchNorm2dShape cfg.embed_dim
      [b, cfg.embed_dim, 1, cfg.num_samples]
      = some [b, cfg.embed_dim, 1, cfg.num_samples] by
    simp [batchNorm2dShape]]
  simp only [Option.some_bind]
  rw [show squeeze2Shape [b, cfg.embed_dim, 1, cfg.num_samples]
      = [b, cfg.embed_dim, cfg.num_samples] by simp [squeeze2Shape]]
  by_cases hpool : 1 ≤ cfg.pool_size ∧ 1 ≤ cfg.pool_stride
      ∧ cfg.pool_size ≤ cfg.num_samples
  case neg =>
    rw [show avgPool1dShape cfg.pool_size cfg.pool_stride
        [b, cfg.embed_dim, cfg.num_samples] = none by
      simp only [avgPool1dShape]; rw [if_neg hpool]]
    rfl
  obtain ⟨hp1, hp2, hp3⟩ := hpool
  rw [show avgPool1dShape cfg.pool_size cfg.pool_stride
      [b, cfg.embed_dim, cfg.num_samples]
      = some [b, cfg.embed_dim,
          (cfg.num_samples - cfg.pool_size) / cfg.pool_stride + 1] by
    simp only [avgPool1dShape]; rw [if_pos ⟨hp1, hp2, hp3⟩]]
  simp only [Option.some_bind]
  rw [varPool1dShape_ok _ _ _ _ _ hp2 hp3]
  simp only [Option.some_bind, dropoutShape, rearrangeToSeq]
  have hted : tedInt cfg
      = (((cfg.num_samples - cfg.pool_size) / cfg.pool_stride + 1 : ℕ) : ℤ) := by
    unfold tedInt
    exact fdiv_sub_natCast _ _ _ hp3
  by_cases hnh : 1 ≤ cfg.num_heads
  case pos =>
    rw [blocksShape_preserves _ _ _ _ _ _ _ hnh]
    simp only [Option.some_bind]
    exact fusionClassify_ted_none cfg b _ hted
  case neg =>
    have h0 : cfg.num_heads = 0 := by omega
    rw [h0]
    by_cases hdep : 1 ≤ cfg.depth
    case pos =>
      rw [blocksShape_zero_heads _ _ _ hdep]
      rfl
    case neg =>
      have hd0 : cfg.depth = 0 := by omega
      rw [hd0]
      simp only [blocksShape, Option.some_bind]
      exact fusionClassify_ted_none cfg b _ hted

/-- C1 (code-bug evidence): with the default construction parameters and a
correctly shaped `[2, 22, 1000]` batch, `temporal_embedding_dim` is indeed
`(1000 - 50) // 15 + 1 = 64`, but `forward` does not complete: the pipeline
reaches the fusion stage with the two path tensors stacked as
`[2, 64, 2, 32]`, and the fusion convolution `nn.Conv2d(122, 64, (2, 1))`
rejects its 64 input channels, so no `[2, 4]` logits tensor is produced. -/
theorem default_config_forward_raises :
    tedInt defaultNTNConfig = 64
    ∧ ntForwardShape defaultNTNConfig false (fun _ => true) (fun _ => true)
        2 22 1000 = none
    ∧ cat2dim2 [2, 64, 1, 32] [2, 64, 1, 32] = some [2, 64, 2, 32]
    ∧ conv2dShape 122 64 2 1 0 0 [2, 64, 2, 32] = none := by
  refine ⟨by decide, by decide, by decide, by decide⟩

/-- A configuration with `embed_dim = 30` (not divisible by 4, and not
divisible by `num_heads = 8`): the explicit input refuting claim C3. -/
def cfgBad30 : NTNConfig := ⟨4, 1000, 22, 30, 50, 15, 8, 4, 4⟩

/-- C3 counterexample: with `embed_dim = 30` (which is neither divisible by
4 nor by `num_heads = 8`) construction does NOT raise — `NeuroTransNet`
performs no construction-time validation, refuting the claim that such a
configuration fails at model-construction time. -/
theorem invalid_embed_dim_constructs :
    cfgBad30.embed_dim % 4 ≠ 0
    ∧ cfgBad30.embed_dim % cfgBad30.num_heads ≠ 0
    ∧ constructNTN cfgBad30 = some () := by
  refine ⟨by decide, by decide, by decide⟩

/-- C3 (amended): construction performs no validation — for any
configuration whose only defect is divisibility (positive stride and head
count, nonnegative classifier width), construction succeeds even when
`embed_dim` is not divisible by 4; the defect surfaces only at forward
time, where every invocation fails (the concatenated multi-scale features
have `4 * (embed_dim / 4) ≠ embed_dim` channels, rejected by the first
batch normalization). -/
theorem construction_performs_no_validation (cfg : NTNConfig)
    (hstride : 1 ≤ cfg.pool_stride) (hheads : 1 ≤ cfg.num_heads)
    (hcls : 0 ≤ (cfg.embed_dim : ℤ) * tedInt cfg)
    (hbad : cfg.embed_dim % 4 ≠ 0) :
    constructNTN cfg = some ()
    ∧ ∀ b c t training m1 m2,
        ntForwardShape cfg training m1 m2 b c t = none := by
  constructor
  · unfold constructNTN
    rw [if_neg (by omega), if_neg (by omega), if_neg (not_lt.mpr hcls)]
  · intro b c t training m1 m2
    unfold ntForwardShape
    by_cases hct : 1 ≤ c ∧ 1 ≤ t
    case neg =>
      rw [conv_temporal15_fail _ _ _ _ hct]
      rfl
    obtain ⟨hc, ht⟩ := hct
    rw [conv_temporal_ok _ 15 7 _ _ _ rfl hc ht,
      conv_temporal_ok _ 25 12 _ _ _ rfl hc ht,
      conv_temporal_ok _ 51 25 _ _ _ rfl hc ht,
      conv_temporal_ok _ 65 32 _ _ _ rfl hc ht]
    simp only [Option.some_bind]
    rw [show cat4dim1 [b, cfg.embed_dim / 4, c, t] [b, cfg.embed_dim / 4, c, t]
        [b, cfg.embed_dim / 4, c, t] [b, cfg.embed_dim / 4, c, t]
        = some [b, cfg.embed_dim / 4 + cfg.embed_dim / 4 + cfg.embed_dim / 4
            + cfg.embed_dim / 4, c, t] by simp [cat4dim1]]
    simp only [Option.some_bind]
    rw [show batchNorm2dShape cfg.embed_dim
        [b, cfg.embed_dim / 4 + cfg.embed_dim / 4 + cfg.embed_dim / 4
          + cfg.embed_dim / 4, c, t] = none by
      simp only [batchNorm2dShape]; rw [if_neg (by omega)]]
    rfl

/-- C3 witness: the amended statement applied to the concrete
configuration `cfgBad30`. -/
theorem construction_performs_no_validation_witness :
    (1 ≤ cfgBad30.pool_stride ∧ 1 ≤ cfgBad30.num_heads
      ∧ 0 ≤ (cfgBad30.embed_dim : ℤ) * tedInt cfgBad30
      ∧ cfgBad30.embed_dim % 4 ≠ 0)
    ∧ (constructNTN cfgBad30 = some ()
      ∧ ∀ b c t training m1 m2,
          ntForwardShape cfgBad30 training m1 m2 b c t = none) :=
  ⟨⟨by decide, by decide, by decide, by decide⟩,
    construction_performs_no_validation cfgBad30 (by decide) (by decide)
      (by decide) (by decide)⟩

/-- C7: `EnhancedTransformerBlock.forward` is exactly the pre-normalization
composition the spec describes: `y = x + MHA(LN1 x, LN1 x, LN1 x)` followed
by `y + FF(LN2 y)` — normalization before each sub-layer, residual added to
the un-normalized input. -/
theorem transformer_block_is_pre_norm_composition :
    ∀ (mha : Mat → Mat → Mat → Mat) (ff : Mat → Mat)
      (ln1 ln2 : Mat → Mat) (data : Mat),
      enhancedTransformerBlockForward mha ff ln1 ln2 data
        = preNormResidualSpec mha ff ln1 ln2 data :=
  fun _ _ _ _ _ => rfl

/-- C8: the dual-path block loop of `NeuroTransNet.forward` applies the one
shared block stack to both pooled paths: it equals applying the very same
list of block functions (same weights at every stage index) to each path
independently — not two independent stacks. -/
theorem dual_path_shares_one_block_stack {α : Type} :
    ∀ (blocks : List (α → α)) (x1 x2 : α),
      dualPathBlocksLoop blocks x1 x2 = sharedStackBothPathsSpec blocks x1 x2 := by
  intro blocks
  induction blocks with
  | nil =>
    intro x1 x2
    rfl
  | cons f tl ih =>
    intro x1 x2
    show dualPathBlocksLoop tl (f x1) (f x2)
      = sharedStackBothPathsSpec (f :: tl) x1 x2
    rw [show sharedStackBothPathsSpec (f :: tl) x1 x2
        = sharedStackBothPathsSpec tl (f x1) (f x2) from rfl]
    exact ih (f x1) (f x2)

/-- C9: in evaluation mode the network is deterministic: dropout — the only
invocation-dependent stochastic operation — is the identity when
`training = false`, and the forward result does not depend on the dropout
randomness: any two runs on the same weights and input agree. -/
theorem eval_mode_forward_deterministic :
    (∀ (p : ℝ) (mask : ℕ → Bool) (xs : List ℝ),
      dropoutForward p false mask xs = xs)
    ∧ ∀ (cfg : NTNConfig) (m1 m2 m1' m2' : ℕ → Bool) (b c t : ℕ),
        ntForwardShape cfg false m1 m2 b c t
          = ntForwardShape cfg false m1' m2' b c t :=
  ⟨fun _ _ _ => rfl, fun _ _ _ _ _ _ _ _ => rfl⟩

/-- The length of one einsum output row equals the width of the first value
row. -/
theorem weightedSum_length (w : List ℝ) (rows : List (List ℝ)) :
    (weightedSum w rows).length = (rows.headD []).length := by
  simp [weightedSum]

/-- C6: for query/key/value of matching head/sequence/feature shapes (same
nonempty sequence length, key/query width `d ≥ 1`, value width `dv`), the
`attention` output has the value's shape, and every row of the returned
attention-weight matrix (the softmax of the scaled query-key dot products)
sums to 1. -/
theorem attention_shape_and_weight_rows (q k v : List (List ℝ)) (d dv : ℕ)
    (hq : q ≠ []) (hk : k.length = q.length) (hv : v.length = q.length)
    (hd : 1 ≤ d) (hqd : ∀ r ∈ q, r.length = d) (hkd : ∀ r ∈ k, r.length = d)
    (hvd : ∀ r ∈ v, r.length = dv) :
    (attention q k v).1.length = v.length
    ∧ (∀ r ∈ (attention q k v).1, r.length = dv)
    ∧ ∀ r ∈ (attention q k v).2, r.sum = 1 := by
  have hvne : v ≠ [] := by
    intro hnil
    rw [hnil] at hv
    exact hq (List.length_eq_zero.mp hv.symm)
  refine ⟨?_, ?_, ?_⟩
  · simp only [attention, List.length_map]
    omega
  · intro r hr
    simp only [attention, List.mem_map] at hr
    obtain ⟨ar, _, rfl⟩ := hr
    rw [weightedSum_length]
    cases v with
    | nil => exact absurd rfl hvne
    | cons r0 tl =>
      show r0.length = dv
      exact hvd r0 (List.mem_cons_self r0 tl)
  · intro r hr
    simp only [attention, List.mem_map] at hr
    obtain ⟨srow, ⟨qr, _, rfl⟩, rfl⟩ := hr
    apply softmaxRow_sum
    intro hemp
    rw [List.map_eq_nil_iff] at hemp
    rw [hemp] at hk
    exact hq (List.length_eq_zero.mp (by simpa using hk.symm))

/-- C6 witness: the theorem applied to the one-head one-position slices
`q = k = v = [[1]]`. -/
theorem attention_shape_and_weight_rows_witness :
    (([[(1 : ℝ)]] : List (List ℝ)) ≠ [] ∧ (1 : ℕ) ≤ 1)
    ∧ ((attention [[(1 : ℝ)]] [[(1 : ℝ)]] [[(1 : ℝ)]]).1.length
        = ([[(1 : ℝ)]] : List (List ℝ)).length
      ∧ (∀ r ∈ (attention [[(1 : ℝ)]] [[(1 : ℝ)]] [[(1 : ℝ)]]).1, r.length = 1)
      ∧ ∀ r ∈ (attention [[(1 : ℝ)]] [[(1 : ℝ)]] [[(1 : ℝ)]]).2, r.sum = 1) :=
  ⟨⟨by simp, le_refl 1⟩,
    attention_shape_and_weight_rows [[1]] [[1]] [[1]] 1 1 (by simp) rfl rfl
      (le_refl 1) (by simp) (by simp) (by simp)⟩

/-- C4: whenever at least one window fits (`k ≤ T`, positive window and
stride), variance pooling and average pooling both succeed and produce
outputs of the same length `⌊(T - k)/s⌋ + 1` along the time axis. -/
theorem variance_and_mean_pool_lengths (k s : ℕ) (xs : List ℝ)
    (hk : 1 ≤ k) (hs : 1 ≤ s) (hkt : k ≤ xs.length) :
    ∃ vout aout,
      enhancedVariancePoolingForward k s xs = some vout
      ∧ avgPool1dForward k s xs = some aout
      ∧ vout.length = aout.length
      ∧ aout.length = (xs.length - k) / s + 1 := by
  unfold enhancedVariancePoolingForward avgPool1dForward
  rw [fdiv_sub_natCast xs.length k s hkt]
  generalize (xs.length - k) / s = q
  rw [if_neg (by omega : ¬s = 0),
    if_neg (show ¬((q + 1 : ℕ) : ℤ) ≤ 0 by exact_mod_cast Nat.not_succ_le_zero q),
    if_pos ⟨hk, hs, hkt⟩]
  have htn : ((q + 1 : ℕ) : ℤ).toNat = q + 1 := by omega
  refine ⟨_, _, rfl, rfl, ?_, ?_⟩
  · simp [htn]
  · simp

/-- C4 witness: the theorem applied to window 2, stride 1 and the concrete
slice `[0, 1, 2]`. -/
theorem variance_and_mean_pool_lengths_witness :
    ((1 : ℕ) ≤ 2 ∧ (1 : ℕ) ≤ 1 ∧ 2 ≤ ([0, 1, 2] : List ℝ).length)
    ∧ ∃ vout aout,
        enhancedVariancePoolingForward 2 1 [0, 1, 2] = some vout
        ∧ avgPool1dForward 2 1 [0, 1, 2] = some aout
        ∧ vout.length = aout.length
        ∧ aout.length = (([0, 1, 2] : List ℝ).length - 2) / 1 + 1 :=
  ⟨⟨by norm_num, le_refl 1, by simp⟩,
    variance_and_mean_pool_lengths 2 1 [0, 1, 2] (by norm_num) (le_refl 1)
      (by simp)⟩

/-- C5: when the `i`-th window (length `k ≥ 2`, fully inside the input) is
constant, its pre-clamp sample variance is 0, the clamp lifts it to `1e-6`,
and the corresponding output entry of the variance pooling is
`log (1e-6)`. -/
theorem variance_pool_constant_window (k s i : ℕ) (xs : List ℝ) (c : ℝ)
    (hs : 1 ≤ s) (hk : 2 ≤ k) (hwin : i * s + k ≤ xs.length)
    (hconst : ∀ y ∈ (xs.drop (i * s)).take k, y = c) :
    torchVarUnbiased ((xs.drop (i * s)).take k) = 0
    ∧ clampTorch (torchVarUnbiased ((xs.drop (i * s)).take k)) 1e-6 1e6 = 1e-6
    ∧ ∃ out, enhancedVariancePoolingForward k s xs = some out
        ∧ out[i]? = some (Real.log 1e-6) := by
  have hvar : torchVarUnbiased ((xs.drop (i * s)).take k) = 0 :=
    torchVarUnbiased_const _ c hconst
  have hclamp : clampTorch (torchVarUnbiased ((xs.drop (i * s)).take k))
      1e-6 1e6 = 1e-6 := by
    rw [hvar, clampTorch_zero]
  refine ⟨hvar, hclamp, ?_⟩
  have hkt : k ≤ xs.length := by omega
  have hile : i ≤ (xs.length - k) / s :=
    (Nat.le_div_iff_mul_le (by omega : 0 < s)).mpr (by omega)
  unfold enhancedVariancePoolingForward
  rw [fdiv_sub_natCast xs.length k s hkt]
  generalize hq : (xs.length - k) / s = q
  rw [hq] at hile
  rw [if_neg (by omega : ¬s = 0),
    if_neg (show ¬((q + 1 : ℕ) : ℤ) ≤ 0 by exact_mod_cast Nat.not_succ_le_zero q)]
  have htn : ((q + 1 : ℕ) : ℤ).toNat = q + 1 := by omega
  rw [htn]
  refine ⟨_, rfl, ?_⟩
  rw [List.getElem?_map, List.getElem?_range (by omega : i < q + 1)]
  show some (Real.log (clampTorch
      (torchVarUnbiased ((xs.drop (i * s)).take k)) 1e-6 1e6))
    = some (Real.log 1e-6)
  rw [hclamp]

/-- C5 witness: the theorem applied to the constant window `[5, 5]` of the
input `[5, 5]` (window 2, stride 1, window index 0). -/
theorem variance_pool_constant_window_witness :
    ((1 : ℕ) ≤ 1 ∧ (2 : ℕ) ≤ 2 ∧ 0 * 1 + 2 ≤ ([5, 5] : List ℝ).length
      ∧ ∀ y ∈ (([5, 5] : List ℝ).drop (0 * 1)).take 2, y = (5 : ℝ))
    ∧ (torchVarUnbiased ((([5, 5] : List ℝ).drop (0 * 1)).take 2) = 0
      ∧ clampTorch (torchVarUnbiased ((([5, 5] : List ℝ).drop (0 * 1)).take 2))
          1e-6 1e6 = 1e-6
      ∧ ∃ out, enhancedVariancePoolingForward 2 1 [5, 5] = some out
          ∧ out[0]? = some (Real.log 1e-6)) :=
  ⟨⟨le_refl 1, le_refl 2, by simp, by simp⟩,
    variance_pool_constant_window 2 1 0 [5, 5] 5 (le_refl 1) (le_refl 2)
      (by simp) (by simp)⟩

/-- C10: when the input is shorter than the window, Python's floor division
makes `out_shape ≤ 0`, the window loop runs zero iterations, and
`torch.cat` of the empty output list raises — the variance pooling fails
rather than returning an empty tensor. -/
theorem variance_pool_short_input_raises (k s : ℕ) (xs : List ℝ)
    (hs : 1 ≤ s) (hshort : xs.length < k) :
    Int.fdiv ((xs.length : ℤ) - k) s + 1 ≤ 0
    ∧ enhancedVariancePoolingForward k s xs = none := by
  have hneg : Int.fdiv ((xs.length : ℤ) - k) s < 0 :=
    fdiv_neg_of_neg _ _ (by omega) hs
  refine ⟨by omega, ?_⟩
  unfold enhancedVariancePoolingForward
  rw [if_neg (by omega : ¬s = 0), if_pos (by omega)]

/-- C10 witness: the theorem applied to window 2, stride 1 and the
one-sample slice `[0]`. -/
theorem variance_pool_short_input_raises_witness :
    ((1 : ℕ) ≤ 1 ∧ ([0] : List ℝ).length < 2)
    ∧ (Int.fdiv ((([0] : List ℝ).length : ℤ) - 2) 1 + 1 ≤ 0
      ∧ enhancedVariancePoolingForward 2 1 [0] = none) :=
  ⟨⟨le_refl 1, by simp⟩,
    variance_pool_short_input_raises 2 1 [0] (le_refl 1) (by simp)⟩

end EEG
